import Mathlib

/-
  Verification of the simulation core of the Puffer Blast bubble shooter
  (src/App.tsx).

  Embedding conventions:
  * Pixel coordinates, velocities and distances are rational numbers.
    Every numeric literal of the source (20, 1.732, 2.5, 1.8, 500, ...)
    is exactly representable in ℚ.
  * JavaScript Math.round is embedded as jsRound (floor of x + 1/2,
    round half toward positive infinity).
  * The source only ever compares Euclidean distances with other
    distances or with constant thresholds, so getDistance is embedded
    by its square getDistanceSq and every threshold by its square;
    Real.sqrt is strictly monotone on nonnegative reals, so all
    comparison outcomes agree and every definition stays executable.
  * Bubble colors are embedded as indices into the COLORS array and
    bubble ids as natural numbers (the source uses unique strings).
  * The unbounded recursion of findMatches / findFloatingBubbles is
    embedded with a fuel argument; the traversal is called with fuel
    (number of bubbles + 1), which the saturation lemma below proves
    computes the same visited set as the unbounded recursion.
-/

-- Constants (src/App.tsx lines 12-17)

def GRID_COLS : ℕ := 8

def BUBBLE_RADIUS : ℚ := 20

def CANVAS_WIDTH : ℚ := (GRID_COLS : ℚ) * BUBBLE_RADIUS * 2

def CANVAS_HEIGHT : ℚ := 500

-- Data model (src/App.tsx lines 20-33)

structure Bubble where
  x : ℚ
  y : ℚ
  color : ℕ
  id : ℕ
deriving DecidableEq, Repr

structure Projectile where
  x : ℚ
  y : ℚ
  vx : ℚ
  vy : ℚ
  color : ℕ
deriving DecidableEq, Repr

/-- Square of the source getDistance (line 37): getDistance x1 y1 x2 y2 ^ 2. -/
def getDistanceSq (x1 y1 x2 y2 : ℚ) : ℚ := (x2 - x1) ^ 2 + (y2 - y1) ^ 2

/-- JavaScript Math.round: round half toward positive infinity. -/
def jsRound (q : ℚ) : ℤ := ⌊q + 1 / 2⌋

-- Grid Coordinate Mapper (src/App.tsx lines 129-144)

def getRow (y : ℚ) : ℤ := jsRound ((y - BUBBLE_RADIUS) / (BUBBLE_RADIUS * 1.732))

def getCol (x : ℚ) (row : ℤ) : ℤ :=
  let offsetX : ℚ := if row % 2 ≠ 0 then BUBBLE_RADIUS else 0
  jsRound ((x - BUBBLE_RADIUS - offsetX) / (BUBBLE_RADIUS * 2))

def getX (row col : ℤ) : ℚ :=
  (col : ℚ) * BUBBLE_RADIUS * 2 + BUBBLE_RADIUS +
    (if row % 2 ≠ 0 then BUBBLE_RADIUS else 0)

def getY (row : ℤ) : ℚ := (row : ℚ) * BUBBLE_RADIUS * 1.732 + BUBBLE_RADIUS

lemma jsRound_intCast (n : ℤ) : jsRound (n : ℚ) = n := by
  unfold jsRound
  rw [Int.floor_int_add]
  norm_num

/-- C1: For every grid address (row, col) with row ≥ 0 and col ≥ 0 the
    Coordinate Mapper round-trips exactly:
    getRow (getY row) = row and getCol (getX row col) row = col. -/
theorem coordinate_roundtrip (row col : ℕ) :
    getRow (getY (row : ℤ)) = (row : ℤ) ∧
    getCol (getX (row : ℤ) (col : ℤ)) (row : ℤ) = (col : ℤ) := by
  constructor
  · unfold getRow getY
    have h : ((row : ℤ) : ℚ) * BUBBLE_RADIUS * 1.732 + BUBBLE_RADIUS - BUBBLE_RADIUS =
        ((row : ℤ) : ℚ) * (BUBBLE_RADIUS * 1.732) := by ring
    rw [h, mul_div_cancel_right₀ _ (by norm_num [BUBBLE_RADIUS] : BUBBLE_RADIUS * (1.732 : ℚ) ≠ 0)]
    exact jsRound_intCast _
  · unfold getCol getX
    have h : ((col : ℤ) : ℚ) * BUBBLE_RADIUS * 2 + BUBBLE_RADIUS +
        (if (row : ℤ) % 2 ≠ 0 then BUBBLE_RADIUS else 0) - BUBBLE_RADIUS -
        (if (row : ℤ) % 2 ≠ 0 then BUBBLE_RADIUS else 0) =
        ((col : ℤ) : ℚ) * (BUBBLE_RADIUS * 2) := by ring
    simp only [h]
    rw [mul_div_cancel_right₀ _ (by norm_num [BUBBLE_RADIUS] : BUBBLE_RADIUS * (2 : ℚ) ≠ 0)]
    exact jsRound_intCast _

-- Flood fill shared by findMatches (lines 197-207) and the traverse of
-- findFloatingBubbles (lines 209-224): visit a bubble by adding its id to
-- the visited set, then recurse into every bubble of the field that passes
-- the adjacency filter and is not yet visited.  The two call sites differ
-- only in the adjacency filter, passed here as the parameter adj.
-- floodList is the forEach over the neighbor list (each recursive call
-- sees the ids added by its predecessors, exactly as the shared mutable
-- JavaScript Set does).

mutual

def floodGo (bs : List Bubble) (adj : Bubble → Bubble → Bool) :
    ℕ → Bubble → List ℕ → List ℕ
  | 0, _, m => m
  | fuel + 1, bubble, m =>
    let m1 := m.insert bubble.id
    let neighbors := bs.filter (fun b => decide (¬ b.id ∈ m1) && adj bubble b)
    floodList bs adj fuel neighbors m1
termination_by fuel _ _ => (fuel, 0)

def floodList (bs : List Bubble) (adj : Bubble → Bubble → Bool) :
    ℕ → List Bubble → List ℕ → List ℕ
  | _, [], m => m
  | fuel, n :: ns, m => floodList bs adj fuel ns (floodGo bs adj fuel n m)
termination_by fuel ns _ => (fuel, ns.length + 1)

end

/-- Adjacency filter of findMatches (lines 199-203): same color and
    Euclidean distance < BUBBLE_RADIUS * 2.5 (compared via squares). -/
def matchAdj (bubble b : Bubble) : Bool :=
  b.color == bubble.color &&
    decide (getDistanceSq b.x b.y bubble.x bubble.y < (BUBBLE_RADIUS * 2.5) ^ 2)

/-- findMatches (lines 197-207); the returned List ℕ plays the role of the
    JavaScript Set of ids (it is built by List.insert from [], hence has no
    duplicates, so its length is the Set size). -/
def findMatches (bubble : Bubble) (currentBubbles : List Bubble) : List ℕ :=
  floodGo currentBubbles matchAdj (currentBubbles.length + 1) bubble []

/-- Adjacency filter of the traverse in findFloatingBubbles (lines 215-218):
    distance only, color-agnostic. -/
def floatAdj (bubble b : Bubble) : Bool :=
  decide (getDistanceSq b.x b.y bubble.x bubble.y < (BUBBLE_RADIUS * 2.5) ^ 2)

/-- findFloatingBubbles (lines 209-224). -/
def findFloatingBubbles (currentBubbles : List Bubble) : List Bubble :=
  let topRow := currentBubbles.filter (fun b => decide (b.y ≤ BUBBLE_RADIUS * 2))
  let connectedToTop := topRow.foldl
    (fun acc b => floodGo currentBubbles floatAdj (currentBubbles.length + 1) b acc) []
  currentBubbles.filter (fun b => decide (¬ b.id ∈ connectedToTop))

-- Collision Resolver (src/App.tsx lines 372-414)

/-- isOccupied (lines 383-388): some stored bubble maps to (r, c) through
    the Coordinate Mapper. -/
def isOccupied (bs : List Bubble) (r c : ℤ) : Bool :=
  bs.any (fun b =>
    let br := getRow b.y
    let bc := getCol b.x br
    br == r && bc == c)

/-- dist < bestDist where bestDist starts at Infinity (line 393). -/
def ltInf (q : ℚ) : Option ℚ → Bool
  | none => true
  | some d => decide (q < d)

/-- The dr/dc double loop of lines 397-411 enumerates the 3x3 neighborhood
    in row-major, then column-major order. -/
def neighborOffsets : List (ℤ × ℤ) :=
  [(-1, -1), (-1, 0), (-1, 1), (0, -1), (0, 0), (0, 1), (1, -1), (1, 0), (1, 1)]

/-- The neighbor search of lines 390-414: if the computed cell is occupied,
    scan the 3x3 neighborhood for the closest free cell (rows < 0 skipped),
    falling back to the original cell; otherwise keep the computed cell.
    Returns the (row, col) the new bubble is materialized at. -/
def resolveCell (bs : List Bubble) (prevX prevY : ℚ) : ℤ × ℤ :=
  let row := getRow prevY
  let col := getCol prevX row
  if isOccupied bs row col then
    let best := neighborOffsets.foldl
      (fun acc d =>
        let nr := row + d.1
        let nc := col + d.2
        if nr < 0 then acc
        else if isOccupied bs nr nc then acc
        else
          let dist := getDistanceSq prevX prevY (getX nr nc) (getY nr)
          if ltInf dist acc.1 then (some dist, nr, nc) else acc)
      ((none : Option ℚ), (row, col))
    best.2
  else (row, col)

-- Match handling on placement (src/App.tsx lines 416-450)

/-- Placement processing (lines 423-450): append the new bubble, flood the
    same-color component; if its size reaches 3 remove it, then remove the
    floating bubbles, scoring matches.size * 10 + floating.length * 20;
    otherwise keep everything and score nothing.  Returns the resulting
    field and the score increment. -/
def processPlacement (nb : Bubble) (bs : List Bubble) : List Bubble × ℕ :=
  let updatedBubbles := bs ++ [nb]
  let matchSet := findMatches nb updatedBubbles
  if 3 ≤ matchSet.length then
    let afterMatch := updatedBubbles.filter (fun b => decide (¬ b.id ∈ matchSet))
    let floating := findFloatingBubbles afterMatch
    let floatingIds := floating.map Bubble.id
    let finalBubbles := afterMatch.filter (fun b => decide (¬ b.id ∈ floatingIds))
    (finalBubbles, matchSet.length * 10 + floating.length * 20)
  else (updatedBubbles, 0)

-- Simulation state and transitions

inductive GState where
  | start
  | playing
  | gameover
deriving DecidableEq, Repr

structure Game where
  bubbles : List Bubble
  score : ℕ
  gameState : GState
  projectile : Option Projectile
  nextColor : ℕ
  nextId : ℕ
deriving DecidableEq, Repr

/-- Position integration and wall reflection (lines 348-354): x += vx,
    y += vy, then negate vx when x leaves [radius, width - radius]. -/
def moveProjectile (p0 : Projectile) : Projectile :=
  let pMoved : Projectile := { p0 with x := p0.x + p0.vx, y := p0.y + p0.vy }
  if pMoved.x < BUBBLE_RADIUS ∨ pMoved.x > CANVAS_WIDTH - BUBBLE_RADIUS then
    { pMoved with vx := -pMoved.vx }
  else pMoved

/-- Collision test (lines 356-370): ceiling hit or any bubble within
    distance radius * 1.8 of the current position. -/
def projectileHit (bs : List Bubble) (p : Projectile) : Bool :=
  decide (p.y < BUBBLE_RADIUS) ||
    bs.any (fun b =>
      decide (getDistanceSq p.x p.y b.x b.y < (BUBBLE_RADIUS * 1.8) ^ 2))

/-- The collided branch (lines 372-457): place the new bubble at the cell
    resolved from the pre-collision position (current minus velocity, the
    velocity possibly already negated by the wall bounce), process matches
    and floating bubbles, clear the projectile and run the game-over
    check. -/
def tickCollide (s : Game) (p : Projectile) : Game :=
  let prevX := p.x - p.vx
  let prevY := p.y - p.vy
  let rc := resolveCell s.bubbles prevX prevY
  let newBubble : Bubble :=
    { x := getX rc.1 rc.2, y := getY rc.1, color := p.color, id := s.nextId }
  let pr := processPlacement newBubble s.bubbles
  let gameOver := pr.1.any (fun b => decide (b.y > CANVAS_HEIGHT - 100))
  { s with bubbles := pr.1, score := s.score + pr.2, projectile := none,
           gameState := if gameOver then GState.gameover else GState.playing,
           nextId := s.nextId + 1 }

/-- One pass of the update loop restricted to core state (lines 284-465;
    drawing and cosmetic particles omitted).  The fresh string id
    new-Date.now() of line 420 is embedded as the counter nextId. -/
def tick (s : Game) : Game :=
  if s.gameState ≠ GState.playing then s
  else match s.projectile with
  | none => s
  | some p0 =>
    let p := moveProjectile p0
    if projectileHit s.bubbles p then tickCollide s p
    else if p.y < -BUBBLE_RADIUS ∨ p.y > CANVAS_HEIGHT + BUBBLE_RADIUS then
      { s with projectile := none }
    else { s with projectile := some p }

/-- handleCanvasClick (lines 170-195) restricted to core state.  The aim
    direction Math.cos(angle) * 8 / Math.sin(angle) * 8 is passed in as the
    components (vx, vy); the freshly drawn random next color as newNext. -/
def fire (s : Game) (vx vy : ℚ) (newNext : ℕ) : Game :=
  if s.gameState ≠ GState.playing ∨ s.projectile ≠ none then s
  else
    { s with
      projectile := some
        { x := CANVAS_WIDTH / 2, y := CANVAS_HEIGHT - 40,
          vx := vx, vy := vy, color := s.nextColor },
      nextColor := newNext }

/-- Number of columns populated in an initial row (line 150). -/
def colsInRow (row : ℕ) : ℕ := if row % 2 = 0 then GRID_COLS else GRID_COLS - 1

/-- The initial field built by initGame (lines 147-159); pick row col is
    the random color draw, the random string id is embedded as
    row * GRID_COLS + col (unique, like the source ids). -/
def initialBubbles (pick : ℕ → ℕ → ℕ) : List Bubble :=
  (List.range 6).flatMap (fun (row : ℕ) =>
    (List.range (colsInRow row)).map (fun (col : ℕ) =>
      { x := getX (row : ℤ) (col : ℤ), y := getY (row : ℤ),
        color := pick row col, id := row * GRID_COLS + col }))

/-- initGame (lines 147-168) restricted to core state: fresh field, score 0,
    playing, no projectile; nextColor is left as is (the source does not
    redraw it on reset). -/
def initGame (s : Game) (pick : ℕ → ℕ → ℕ) : Game :=
  { s with bubbles := initialBubbles pick, score := 0,
           gameState := GState.playing, projectile := none, nextId := 48 }

-- Properties of the flood fill

/-- One adjacency step of the flood fill: b is a field bubble passing the
    adjacency filter relative to a. -/
def FloodStep (bs : List Bubble) (adj : Bubble → Bubble → Bool) (a b : Bubble) : Prop :=
  b ∈ bs ∧ adj a b = true

/-- Reachability through adjacency steps: the connected set seeded at a. -/
def FloodReach (bs : List Bubble) (adj : Bubble → Bubble → Bool) : Bubble → Bubble → Prop :=
  Relation.ReflTransGen (FloodStep bs adj)

section FloodLemmas

variable (bs : List Bubble) (adj : Bubble → Bubble → Bool)

lemma floodList_mono_of_go (fuel : ℕ)
    (hgo : ∀ bubble m, ∀ i ∈ m, i ∈ floodGo bs adj fuel bubble m) :
    ∀ ns m, ∀ i ∈ m, i ∈ floodList bs adj fuel ns m := by
  intro ns
  induction ns with
  | nil => intro m i hi; simpa [floodList] using hi
  | cons n ns ih =>
    intro m i hi
    rw [floodList]
    exact ih _ i (hgo n m i hi)

lemma floodGo_mono : ∀ fuel bubble m, ∀ i ∈ m, i ∈ floodGo bs adj fuel bubble m := by
  intro fuel
  induction fuel with
  | zero => intro bubble m i hi; simpa [floodGo] using hi
  | succ f ih =>
    intro bubble m i hi
    rw [floodGo]
    exact floodList_mono_of_go bs adj f ih _ _ i (List.mem_insert_of_mem hi)

lemma floodList_mono (fuel : ℕ) :
    ∀ ns m, ∀ i ∈ m, i ∈ floodList bs adj fuel ns m :=
  floodList_mono_of_go bs adj fuel (floodGo_mono bs adj fuel)

lemma floodGo_self (fuel : ℕ) (bubble : Bubble) (m : List ℕ) (h : 1 ≤ fuel) :
    bubble.id ∈ floodGo bs adj fuel bubble m := by
  cases fuel with
  | zero => omega
  | succ f =>
    rw [floodGo]
    exact floodList_mono bs adj f _ _ _ (List.mem_insert_self _ _)

lemma floodList_nodup_of_go (fuel : ℕ)
    (hgo : ∀ bubble m, m.Nodup → (floodGo bs adj fuel bubble m).Nodup) :
    ∀ ns m, m.Nodup → (floodList bs adj fuel ns m).Nodup := by
  intro ns
  induction ns with
  | nil => intro m hm; simpa [floodList] using hm
  | cons n ns ih =>
    intro m hm
    rw [floodList]
    exact ih _ (hgo n m hm)

lemma floodGo_nodup : ∀ fuel bubble m, m.Nodup → (floodGo bs adj fuel bubble m).Nodup := by
  intro fuel
  induction fuel with
  | zero => intro bubble m hm; simpa [floodGo] using hm
  | succ f ih =>
    intro bubble m hm
    rw [floodGo]
    exact floodList_nodup_of_go bs adj f ih _ _ (hm.insert)

lemma floodList_sound_of_go (fuel : ℕ)
    (hgo : ∀ bubble m i, i ∈ floodGo bs adj fuel bubble m →
      i ∈ m ∨ ∃ b, FloodReach bs adj bubble b ∧ b.id = i ∧ (b = bubble ∨ b ∈ bs)) :
    ∀ ns m i, i ∈ floodList bs adj fuel ns m →
      i ∈ m ∨ ∃ n ∈ ns, ∃ b, FloodReach bs adj n b ∧ b.id = i ∧ (b = n ∨ b ∈ bs) := by
  intro ns
  induction ns with
  | nil => intro m i hi; left; simpa [floodList] using hi
  | cons n ns ih =>
    intro m i hi
    rw [floodList] at hi
    rcases ih _ i hi with h | ⟨n', hn', hb⟩
    · rcases hgo n m i h with h' | ⟨b, hrtc, hbi, hbb⟩
      · exact Or.inl h'
      · exact Or.inr ⟨n, List.mem_cons_self _ _, b, hrtc, hbi, hbb⟩
    · exact Or.inr ⟨n', List.mem_cons_of_mem _ hn', hb⟩

lemma floodGo_sound : ∀ fuel bubble m i, i ∈ floodGo bs adj fuel bubble m →
    i ∈ m ∨ ∃ b, FloodReach bs adj bubble b ∧ b.id = i ∧ (b = bubble ∨ b ∈ bs) := by
  intro fuel
  induction fuel with
  | zero => intro bubble m i hi; left; simpa [floodGo] using hi
  | succ f ih =>
    intro bubble m i hi
    rw [floodGo] at hi
    rcases floodList_sound_of_go bs adj f ih _ _ i hi with h | ⟨n, hn, b, hrtc, hbi, hbb⟩
    · rcases List.mem_insert_iff.1 h with h' | h'
      · exact Or.inr ⟨bubble, Relation.ReflTransGen.refl, h'.symm, Or.inl rfl⟩
      · exact Or.inl h'
    · have hnf := List.mem_filter.1 hn
      have hadj : adj bubble n = true := by
        have := hnf.2
        simp only [Bool.and_eq_true] at this
        exact this.2
      have hstep : FloodStep bs adj bubble n := ⟨hnf.1, hadj⟩
      refine Or.inr ⟨b, Relation.ReflTransGen.head hstep hrtc, hbi, Or.inr ?_⟩
      rcases hbb with rfl | hbbs
      · exact hnf.1
      · exact hbbs

end FloodLemmas

-- Unfolding equations in a directly usable form

lemma floodGo_succ (bs : List Bubble) (adj : Bubble → Bubble → Bool)
    (f : ℕ) (bubble : Bubble) (m : List ℕ) :
    floodGo bs adj (f + 1) bubble m =
      floodList bs adj f
        (bs.filter (fun b => decide (¬ b.id ∈ m.insert bubble.id) && adj bubble b))
        (m.insert bubble.id) := by
  rw [floodGo]

lemma floodList_nil (bs : List Bubble) (adj : Bubble → Bubble → Bool)
    (f : ℕ) (m : List ℕ) : floodList bs adj f [] m = m := by
  rw [floodList]

lemma floodList_cons (bs : List Bubble) (adj : Bubble → Bubble → Bool)
    (f : ℕ) (n : Bubble) (ns : List Bubble) (m : List ℕ) :
    floodList bs adj f (n :: ns) m = floodList bs adj f ns (floodGo bs adj f n m) := by
  rw [floodList]

-- Counting lemmas for the termination measure of the saturation argument

lemma length_filter_le_of_imp {α : Type} (l : List α) (p q : α → Bool)
    (h : ∀ a, q a = true → p a = true) :
    (l.filter q).length ≤ (l.filter p).length := by
  induction l with
  | nil => simp
  | cons a l ih =>
    by_cases hq : q a = true
    · rw [List.filter_cons_of_pos hq, List.filter_cons_of_pos (h a hq)]
      simp only [List.length_cons]
      omega
    · by_cases hp : p a = true
      · rw [List.filter_cons_of_neg (by simpa using hq), List.filter_cons_of_pos hp]
        simp only [List.length_cons]
        omega
      · rw [List.filter_cons_of_neg (by simpa using hq),
          List.filter_cons_of_neg (by simpa using hp)]
        exact ih

lemma length_filter_lt {α : Type} (l : List α) (p q : α → Bool)
    (h : ∀ a, q a = true → p a = true) (x : α) (hx : x ∈ l)
    (hxp : p x = true) (hxq : ¬ q x = true) :
    (l.filter q).length < (l.filter p).length := by
  induction l with
  | nil => cases hx
  | cons a l ih =>
    rcases List.mem_cons.1 hx with rfl | hx'
    · rw [List.filter_cons_of_pos hxp, List.filter_cons_of_neg (by simpa using hxq)]
      have hle := length_filter_le_of_imp l p q h
      simp only [List.length_cons]
      omega
    · by_cases hq : q a = true
      · rw [List.filter_cons_of_pos hq, List.filter_cons_of_pos (h a hq)]
        have hlt := ih hx'
        simp only [List.length_cons]
        omega
      · by_cases hp : p a = true
        · rw [List.filter_cons_of_neg (by simpa using hq), List.filter_cons_of_pos hp]
          have hlt := ih hx'
          simp only [List.length_cons]
          omega
        · rw [List.filter_cons_of_neg (by simpa using hq),
            List.filter_cons_of_neg (by simpa using hp)]
          exact ih hx'

/-- Number of field bubbles whose id is not yet visited; the measure showing
    that fuel (number of bubbles + 1) saturates the flood fill. -/
def unvisited (bs : List Bubble) (m : List ℕ) : ℕ :=
  (bs.filter (fun b => decide (¬ b.id ∈ m))).length

lemma unvisited_le_length (bs : List Bubble) (m : List ℕ) :
    unvisited bs m ≤ bs.length :=
  List.length_filter_le _ _

lemma unvisited_lt_of_mem {bs : List Bubble} {m M : List ℕ} {b : Bubble}
    (hsub : ∀ i ∈ m, i ∈ M) (hb : b ∈ bs) (hbm : ¬ b.id ∈ m) (hbM : b.id ∈ M) :
    unvisited bs M < unvisited bs m := by
  refine length_filter_lt bs _ _ ?_ b hb ?_ ?_
  · intro a ha
    simp only [decide_eq_true_eq] at ha ⊢
    exact fun hm => ha (hsub _ hm)
  · simpa using hbm
  · simpa using hbM

lemma unvisited_insert_lt {bs : List Bubble} {m : List ℕ} {b : Bubble}
    (hb : b ∈ bs) (hbm : ¬ b.id ∈ m) :
    unvisited bs (m.insert b.id) < unvisited bs m :=
  unvisited_lt_of_mem (fun _ => List.mem_insert_of_mem) hb hbm (List.mem_insert_self _ _)

/-- Every field neighbor of b under the adjacency filter has its id in M. -/
def NodeSat (bs : List Bubble) (adj : Bubble → Bubble → Bool) (M : List ℕ)
    (b : Bubble) : Prop :=
  ∀ b' ∈ bs, adj b b' = true → b'.id ∈ M

/-- Saturation: with fuel exceeding the number of unvisited bubbles, the
    flood fill visits every filter-neighbor of the seed, and every field
    bubble it newly visits likewise has all its filter-neighbors visited.
    This is exactly what the unbounded JavaScript recursion guarantees. -/
lemma floodGo_sat (bs : List Bubble) (adj : Bubble → Bubble → Bool)
    (hinj : ∀ b1 ∈ bs, ∀ b2 ∈ bs, b1.id = b2.id → b1 = b2) :
    ∀ fuel bubble m, bubble ∈ bs → unvisited bs (m.insert bubble.id) < fuel →
      NodeSat bs adj (floodGo bs adj fuel bubble m) bubble ∧
      (∀ b ∈ bs, b.id ∈ floodGo bs adj fuel bubble m → ¬ b.id ∈ m.insert bubble.id →
        NodeSat bs adj (floodGo bs adj fuel bubble m) b) := by
  intro fuel
  induction fuel with
  | zero => intro bubble m _ h; omega
  | succ f ih =>
    have hlist : ∀ ns acc m',
        unvisited bs m' ≤ f →
        (acc = m' ∨ unvisited bs acc < unvisited bs m') →
        (∀ i ∈ m', i ∈ acc) →
        (∀ n ∈ ns, n ∈ bs ∧ ¬ n.id ∈ m') →
        (∀ i ∈ acc, i ∈ floodList bs adj f ns acc) ∧
        (∀ n ∈ ns, n.id ∈ floodList bs adj f ns acc) ∧
        (∀ b ∈ bs, b.id ∈ floodList bs adj f ns acc → ¬ b.id ∈ acc →
          NodeSat bs adj (floodList bs adj f ns acc) b) := by
      intro ns
      induction ns with
      | nil =>
        intro acc m' _ _ _ _
        rw [floodList_nil]
        exact ⟨fun i hi => hi, by simp, fun b _ hbM hbacc => absurd hbM hbacc⟩
      | cons n ns ihns =>
        intro acc m' hum' hrel hsub hns
        obtain ⟨hnbs, hnm'⟩ := hns n (List.mem_cons_self _ _)
        have haccle : unvisited bs acc ≤ unvisited bs m' := by
          rcases hrel with rfl | hlt
          · exact le_refl _
          · exact le_of_lt hlt
        have hin : unvisited bs (acc.insert n.id) < f := by
          by_cases hmemn : n.id ∈ acc
          · rw [List.insert_of_mem hmemn]
            rcases hrel with rfl | hlt
            · exact absurd hmemn hnm'
            · omega
          · have h1 := unvisited_insert_lt hnbs hmemn
            omega
        have hgo := ih n acc hnbs hin
        have hmonoM1 := floodGo_mono bs adj f n acc
        have hfge1 : 1 ≤ f := by omega
        have hnM1 : n.id ∈ floodGo bs adj f n acc :=
          floodGo_self bs adj f n acc hfge1
        have hm'M1 : ∀ i ∈ m', i ∈ floodGo bs adj f n acc :=
          fun i hi => hmonoM1 _ (hsub i hi)
        have hM1lt : unvisited bs (floodGo bs adj f n acc) < unvisited bs m' :=
          unvisited_lt_of_mem hm'M1 hnbs hnm' hnM1
        have hrec := ihns (floodGo bs adj f n acc) m' hum' (Or.inr hM1lt) hm'M1
          (fun n' hn' => hns n' (List.mem_cons_of_mem _ hn'))
        rw [floodList_cons]
        refine ⟨?_, ?_, ?_⟩
        · intro i hi
          exact hrec.1 _ (hmonoM1 _ hi)
        · intro n' hn'
          rcases List.mem_cons.1 hn' with rfl | hns'
          · exact hrec.1 _ hnM1
          · exact hrec.2.1 _ hns'
        · intro b hb hbM hbacc
          by_cases hbM1 : b.id ∈ floodGo bs adj f n acc
          · by_cases hbins : b.id ∈ acc.insert n.id
            · have hbn : b.id = n.id := by
                rcases List.mem_insert_iff.1 hbins with h | h
                · exact h
                · exact absurd h hbacc
              have hbeq : b = n := hinj b hb n hnbs hbn
              subst hbeq
              intro b' hb' hadj
              exact hrec.1 _ (hgo.1 b' hb' hadj)
            · intro b' hb' hadj
              exact hrec.1 _ (hgo.2 b hb hbM1 hbins b' hb' hadj)
          · exact hrec.2.2 b hb hbM hbM1
    intro bubble m hbubble hu
    rw [floodGo_succ]
    have hns : ∀ n ∈ bs.filter
        (fun b => decide (¬ b.id ∈ m.insert bubble.id) && adj bubble b),
        n ∈ bs ∧ ¬ n.id ∈ m.insert bubble.id := by
      intro n hn
      have hmf := List.mem_filter.1 hn
      refine ⟨hmf.1, ?_⟩
      have h2 := hmf.2
      simp only [Bool.and_eq_true, decide_eq_true_eq] at h2
      exact h2.1
    have hres := hlist _ (m.insert bubble.id) (m.insert bubble.id)
      (by omega) (Or.inl rfl) (fun i hi => hi) hns
    constructor
    · intro b' hb' hadj
      by_cases hbm1 : b'.id ∈ m.insert bubble.id
      · exact hres.1 _ hbm1
      · have hmem : b' ∈ bs.filter
            (fun b => decide (¬ b.id ∈ m.insert bubble.id) && adj bubble b) :=
          List.mem_filter.2 ⟨hb', by simp [hbm1, hadj]⟩
        exact hres.2.1 _ hmem
    · exact hres.2.2

lemma floodReach_mem {bs : List Bubble} {adj : Bubble → Bubble → Bool}
    {seed b : Bubble} (h : FloodReach bs adj seed b) : b = seed ∨ b ∈ bs := by
  induction h with
  | refl => exact Or.inl rfl
  | tail _ hstep _ => exact Or.inr hstep.1

/-- With fuel bs.length + 1, the top-level flood fill reaches every bubble
    connected to the seed: the fuel embedding loses nothing against the
    unbounded JavaScript recursion. -/
lemma floodGo_complete (bs : List Bubble) (adj : Bubble → Bubble → Bool)
    (hinj : ∀ b1 ∈ bs, ∀ b2 ∈ bs, b1.id = b2.id → b1 = b2)
    (seed : Bubble) (hseed : seed ∈ bs) :
    ∀ b, FloodReach bs adj seed b → b.id ∈ floodGo bs adj (bs.length + 1) seed [] := by
  have hu : unvisited bs (([] : List ℕ).insert seed.id) < bs.length + 1 := by
    have := unvisited_le_length bs (([] : List ℕ).insert seed.id)
    omega
  have hsat := floodGo_sat bs adj hinj (bs.length + 1) seed [] hseed hu
  have hself : seed.id ∈ floodGo bs adj (bs.length + 1) seed [] :=
    floodGo_self bs adj _ seed [] (by omega)
  intro b hreach
  induction hreach with
  | refl => exact hself
  | tail hsc hstep ihc =>
    rename_i c b'
    obtain ⟨hb'bs, hadj⟩ := hstep
    have hcbs : c ∈ bs := by
      rcases floodReach_mem hsc with rfl | h
      · exact hseed
      · exact h
    by_cases hcm : c.id ∈ (([] : List ℕ).insert seed.id)
    · have hcseed : c.id = seed.id := by simpa using hcm
      have : c = seed := hinj c hcbs seed hseed hcseed
      subst this
      exact hsat.1 b' hb'bs hadj
    · exact hsat.2 c hcbs ihc hcm b' hb'bs hadj

/-- The connected cluster of the spec: field bubbles reachable from the
    seed through the findMatches adjacency (same color, distance below
    2.5 radii). -/
def matchComponent (bs : List Bubble) (seed : Bubble) : Set Bubble :=
  {b | b ∈ bs ∧ FloodReach bs matchAdj seed b}

/-- The id set computed by findMatches is exactly the id set of the
    connected cluster of the seed. -/
lemma findMatches_mem_iff (bs : List Bubble) (seed : Bubble)
    (hinj : ∀ b1 ∈ bs, ∀ b2 ∈ bs, b1.id = b2.id → b1 = b2)
    (hseed : seed ∈ bs) (b : Bubble) (hb : b ∈ bs) :
    b.id ∈ findMatches seed bs ↔ FloodReach bs matchAdj seed b := by
  unfold findMatches
  constructor
  · intro h
    rcases floodGo_sound bs matchAdj _ seed [] _ h with h' | ⟨b', hr, hid, hbb⟩
    · cases h'
    · have hb'bs : b' ∈ bs := by
        rcases hbb with rfl | h'' 
        · exact hseed
        · exact h''
      have heq : b' = b := hinj b' hb'bs b hb hid
      subst heq
      exact hr
  · intro h
    exact floodGo_complete bs matchAdj hinj seed hseed b h

lemma floodReach_color {bs : List Bubble} {seed b : Bubble}
    (h : FloodReach bs matchAdj seed b) : b.color = seed.color := by
  induction h with
  | refl => rfl
  | tail _ hstep ih =>
    have hadj := hstep.2
    simp only [matchAdj, Bool.and_eq_true, beq_iff_eq] at hadj
    rw [hadj.1, ih]

/-- C8: for every seed bubble and field with the source's unique ids, every
    id returned by findMatches belongs to a bubble of the seed's color; in
    particular the returned set never contains two bubbles of different
    colors. -/
theorem findMatches_same_color (bs : List Bubble) (seed : Bubble)
    (hinj : ∀ b1 ∈ bs, ∀ b2 ∈ bs, b1.id = b2.id → b1 = b2)
    (hseed : seed ∈ bs) :
    ∀ b1 ∈ bs, ∀ b2 ∈ bs, b1.id ∈ findMatches seed bs → b2.id ∈ findMatches seed bs →
      b1.color = seed.color ∧ b1.color = b2.color := by
  intro b1 hb1 b2 hb2 h1 h2
  have hc1 := floodReach_color ((findMatches_mem_iff bs seed hinj hseed b1 hb1).1 h1)
  have hc2 := floodReach_color ((findMatches_mem_iff bs seed hinj hseed b2 hb2).1 h2)
  exact ⟨hc1, by rw [hc1, hc2]⟩

theorem findMatches_same_color_witness :
    let b0 : Bubble := { x := 20, y := 20, color := 0, id := 0 }
    let b1 : Bubble := { x := 60, y := 20, color := 1, id := 1 }
    b0.color = b0.color ∧ b0.color = b0.color := by
  intro b0 b1
  refine findMatches_same_color [b0, b1] b0 ?_ ?_ b0 ?_ b0 ?_ ?_ ?_
  · intro c1 hc1 c2 hc2 hid
    rcases List.mem_cons.1 hc1 with rfl | hc1 <;> rcases List.mem_cons.1 hc2 with rfl | hc2 <;>
      simp_all
  · exact List.mem_cons_self _ _
  · exact List.mem_cons_self _ _
  · exact List.mem_cons_self _ _
  · exact floodGo_self _ _ _ _ _ (by omega)
  · exact floodGo_self _ _ _ _ _ (by omega)

lemma foldl_floodGo_mono (bs : List Bubble) (adj : Bubble → Bubble → Bool)
    (fuel : ℕ) :
    ∀ (l : List Bubble) (acc : List ℕ), ∀ i ∈ acc,
      i ∈ l.foldl (fun acc x => floodGo bs adj fuel x acc) acc := by
  intro l
  induction l with
  | nil => intro acc i hi; simpa using hi
  | cons a l ih =>
    intro acc i hi
    simp only [List.foldl_cons]
    exact ih _ i (floodGo_mono bs adj fuel a acc i hi)

lemma foldl_floodGo_mem (bs : List Bubble) (adj : Bubble → Bubble → Bool)
    (fuel : ℕ) (hfuel : 1 ≤ fuel) :
    ∀ (l : List Bubble) (acc : List ℕ), ∀ b ∈ l,
      b.id ∈ l.foldl (fun acc x => floodGo bs adj fuel x acc) acc := by
  intro l
  induction l with
  | nil => intro acc b h; cases h
  | cons a l ih =>
    intro acc b h
    simp only [List.foldl_cons]
    rcases List.mem_cons.1 h with rfl | h'
    · exact foldl_floodGo_mono bs adj fuel l _ _
        (floodGo_self bs adj fuel b acc hfuel)
    · exact ih _ b h'

/-- C4: every bubble of the ceiling row (y ≤ 2 radii) is classified as
    grounded: findFloatingBubbles never returns it. -/
theorem ceiling_grounded (bs : List Bubble) (b : Bubble) (hb : b ∈ bs)
    (hy : b.y ≤ BUBBLE_RADIUS * 2) : b ∉ findFloatingBubbles bs := by
  intro hmem
  unfold findFloatingBubbles at hmem
  have h := List.mem_filter.1 hmem
  have hnot : ¬ b.id ∈ (bs.filter (fun b => decide (b.y ≤ BUBBLE_RADIUS * 2))).foldl
      (fun acc x => floodGo bs floatAdj (bs.length + 1) x acc) [] := by
    simpa using h.2
  apply hnot
  have htop : b ∈ bs.filter (fun b => decide (b.y ≤ BUBBLE_RADIUS * 2)) :=
    List.mem_filter.2 ⟨hb, by simpa using hy⟩
  exact foldl_floodGo_mem bs floatAdj (bs.length + 1) (by omega) _ [] b htop

theorem ceiling_grounded_witness :
    ({ x := 20, y := 20, color := 0, id := 0 } : Bubble) ∉
      findFloatingBubbles [{ x := 20, y := 20, color := 0, id := 0 }] :=
  ceiling_grounded _ _ (List.mem_cons_self _ _) (by norm_num [BUBBLE_RADIUS])

/-- C3: a placement whose connected same-color cluster has exactly 2
    members removes nothing (the placed bubble stays, score increment 0);
    a cluster of exactly 3 members is always removed in full. -/
theorem match_threshold (old : List Bubble) (nb : Bubble)
    (hinj : ∀ b1 ∈ old ++ [nb], ∀ b2 ∈ old ++ [nb], b1.id = b2.id → b1 = b2) :
    (∀ b2 : Bubble, b2 ≠ nb →
       matchComponent (old ++ [nb]) nb = {nb, b2} →
       processPlacement nb old = (old ++ [nb], 0)) ∧
    (∀ b2 b3 : Bubble, b2 ≠ nb → b3 ≠ nb → b2 ≠ b3 →
       matchComponent (old ++ [nb]) nb = {nb, b2, b3} →
       nb ∉ (processPlacement nb old).1 ∧ b2 ∉ (processPlacement nb old).1 ∧
         b3 ∉ (processPlacement nb old).1) := by
  have hnb : nb ∈ old ++ [nb] := by simp
  have hnodup : (findMatches nb (old ++ [nb])).Nodup :=
    floodGo_nodup _ _ _ _ _ List.nodup_nil
  constructor
  · intro b2 hne hcomp
    have hb2comp : b2 ∈ matchComponent (old ++ [nb]) nb := by
      rw [hcomp]; simp
    obtain ⟨hb2mem, hb2reach⟩ := hb2comp
    have hidne : nb.id ≠ b2.id := fun h => hne (hinj b2 hb2mem nb hnb h.symm)
    have hiff : ∀ i, i ∈ findMatches nb (old ++ [nb]) ↔ i = nb.id ∨ i = b2.id := by
      intro i
      constructor
      · intro hi
        rcases floodGo_sound (old ++ [nb]) matchAdj _ nb [] i hi with h' | ⟨b, hr, hid, hbb⟩
        · cases h'
        · have hbmem : b ∈ old ++ [nb] := by
            rcases hbb with rfl | h''
            · exact hnb
            · exact h''
          have hbc : b ∈ matchComponent (old ++ [nb]) nb := ⟨hbmem, hr⟩
          rw [hcomp] at hbc
          simp only [Set.mem_insert_iff, Set.mem_singleton_iff] at hbc
          rcases hbc with rfl | rfl
          · exact Or.inl hid.symm
          · exact Or.inr hid.symm
      · intro hi
        rcases hi with rfl | rfl
        · exact floodGo_self _ _ _ _ _ (by omega)
        · exact (findMatches_mem_iff (old ++ [nb]) nb hinj hnb b2 hb2mem).2 hb2reach
    have htf : (findMatches nb (old ++ [nb])).toFinset = {nb.id, b2.id} := by
      ext i
      simp [List.mem_toFinset, hiff i]
    have hlen : (findMatches nb (old ++ [nb])).length = 2 := by
      have hcard := List.toFinset_card_of_nodup hnodup
      rw [htf] at hcard
      have h2 : ({nb.id, b2.id} : Finset ℕ).card = 2 := by
        rw [Finset.card_insert_of_not_mem (by simpa using hidne)]
        simp
      omega
    simp only [processPlacement]
    rw [hlen]
    norm_num
  · intro b2 b3 hne2 hne3 hne23 hcomp
    have hb2comp : b2 ∈ matchComponent (old ++ [nb]) nb := by
      rw [hcomp]; simp
    have hb3comp : b3 ∈ matchComponent (old ++ [nb]) nb := by
      rw [hcomp]; simp
    obtain ⟨hb2mem, hb2reach⟩ := hb2comp
    obtain ⟨hb3mem, hb3reach⟩ := hb3comp
    have hid2 : nb.id ≠ b2.id := fun h => hne2 (hinj b2 hb2mem nb hnb h.symm)
    have hid3 : nb.id ≠ b3.id := fun h => hne3 (hinj b3 hb3mem nb hnb h.symm)
    have hid23 : b2.id ≠ b3.id := fun h => hne23 (hinj b2 hb2mem b3 hb3mem h)
    have hiff : ∀ i, i ∈ findMatches nb (old ++ [nb]) ↔
        i = nb.id ∨ i = b2.id ∨ i = b3.id := by
      intro i
      constructor
      · intro hi
        rcases floodGo_sound (old ++ [nb]) matchAdj _ nb [] i hi with h' | ⟨b, hr, hid, hbb⟩
        · cases h'
        · have hbmem : b ∈ old ++ [nb] := by
            rcases hbb with rfl | h''
            · exact hnb
            · exact h''
          have hbc : b ∈ matchComponent (old ++ [nb]) nb := ⟨hbmem, hr⟩
          rw [hcomp] at hbc
          simp only [Set.mem_insert_iff, Set.mem_singleton_iff] at hbc
          rcases hbc with rfl | rfl | rfl
          · exact Or.inl hid.symm
          · exact Or.inr (Or.inl hid.symm)
          · exact Or.inr (Or.inr hid.symm)
      · intro hi
        rcases hi with rfl | rfl | rfl
        · exact floodGo_self _ _ _ _ _ (by omega)
        · exact (findMatches_mem_iff (old ++ [nb]) nb hinj hnb b2 hb2mem).2 hb2reach
        · exact (findMatches_mem_iff (old ++ [nb]) nb hinj hnb b3 hb3mem).2 hb3reach
    have htf : (findMatches nb (old ++ [nb])).toFinset = {nb.id, b2.id, b3.id} := by
      ext i
      simp [List.mem_toFinset, hiff i]
    have hlen : (findMatches nb (old ++ [nb])).length = 3 := by
      have hcard := List.toFinset_card_of_nodup hnodup
      rw [htf] at hcard
      have h3 : ({nb.id, b2.id, b3.id} : Finset ℕ).card = 3 := by
        rw [Finset.card_insert_of_not_mem (by simp [hid2, hid3]),
          Finset.card_insert_of_not_mem (by simpa using hid23)]
        simp
      omega
    have hsplit : ∀ b : Bubble, b.id ∈ findMatches nb (old ++ [nb]) →
        b ∉ (processPlacement nb old).1 := by
      intro b hbid hbfinal
      simp only [processPlacement] at hbfinal
      rw [hlen, if_pos (by norm_num : (3 : ℕ) ≤ 3)] at hbfinal
      have h1 := (List.mem_filter.1 hbfinal).1
      have h2 := (List.mem_filter.1 h1).2
      simp only [decide_eq_true_eq] at h2
      exact h2 hbid
    refine ⟨hsplit nb ((hiff nb.id).2 (Or.inl rfl)),
      hsplit b2 ((hiff b2.id).2 (Or.inr (Or.inl rfl))),
      hsplit b3 ((hiff b3.id).2 (Or.inr (Or.inr rfl)))⟩

lemma inj_of_ids_nodup (bs : List Bubble) (hnd : (bs.map Bubble.id).Nodup) :
    ∀ b1 ∈ bs, ∀ b2 ∈ bs, b1.id = b2.id → b1 = b2 :=
  fun _ h1 _ h2 hid => List.inj_on_of_nodup_map hnd h1 h2 hid

theorem match_threshold_witness :
    processPlacement { x := 60, y := 20, color := 0, id := 1 }
        [{ x := 20, y := 20, color := 0, id := 0 }] =
      ([{ x := 20, y := 20, color := 0, id := 0 },
        { x := 60, y := 20, color := 0, id := 1 }], 0) ∧
    ({ x := 100, y := 20, color := 0, id := 12 } : Bubble) ∉
      (processPlacement { x := 100, y := 20, color := 0, id := 12 }
        [{ x := 20, y := 20, color := 0, id := 10 },
         { x := 60, y := 20, color := 0, id := 11 }]).1 := by
  constructor
  · refine (match_threshold [{ x := 20, y := 20, color := 0, id := 0 }]
      { x := 60, y := 20, color := 0, id := 1 }
      (inj_of_ids_nodup _ (by decide))).1
      { x := 20, y := 20, color := 0, id := 0 }
      (fun h => by simpa using congrArg Bubble.id h) ?_
    ext b
    simp only [matchComponent, Set.mem_setOf_eq, Set.mem_insert_iff,
      Set.mem_singleton_iff]
    constructor
    · rintro ⟨hmem, _⟩
      have : b = { x := 20, y := 20, color := 0, id := 0 } ∨
          b = { x := 60, y := 20, color := 0, id := 1 } := by simpa using hmem
      tauto
    · rintro (rfl | rfl)
      · exact ⟨by simp, Relation.ReflTransGen.refl⟩
      · refine ⟨by simp, Relation.ReflTransGen.single ⟨by simp, ?_⟩⟩
        simp only [matchAdj, getDistanceSq]
        norm_num [BUBBLE_RADIUS]
  · refine ((match_threshold
      [{ x := 20, y := 20, color := 0, id := 10 },
       { x := 60, y := 20, color := 0, id := 11 }]
      { x := 100, y := 20, color := 0, id := 12 }
      (inj_of_ids_nodup _ (by decide))).2
      { x := 20, y := 20, color := 0, id := 10 }
      { x := 60, y := 20, color := 0, id := 11 }
      (fun h => by simpa using congrArg Bubble.id h)
      (fun h => by simpa using congrArg Bubble.id h)
      (fun h => by simpa using congrArg Bubble.id h) ?_).1
    ext b
    simp only [matchComponent, Set.mem_setOf_eq, Set.mem_insert_iff,
      Set.mem_singleton_iff]
    constructor
    · rintro ⟨hmem, _⟩
      have : b = { x := 20, y := 20, color := 0, id := 10 } ∨
          b = { x := 60, y := 20, color := 0, id := 11 } ∨
          b = { x := 100, y := 20, color := 0, id := 12 } := by simpa using hmem
      tauto
    · rintro (rfl | rfl | rfl)
      · exact ⟨by simp, Relation.ReflTransGen.refl⟩
      · refine ⟨by simp, Relation.ReflTransGen.head
          (b := { x := 60, y := 20, color := 0, id := 11 }) ⟨by simp, ?_⟩
          (Relation.ReflTransGen.single ⟨by simp, ?_⟩)⟩
        · simp only [matchAdj, getDistanceSq]
          norm_num [BUBBLE_RADIUS]
        · simp only [matchAdj, getDistanceSq]
          norm_num [BUBBLE_RADIUS]
      · refine ⟨by simp, Relation.ReflTransGen.single ⟨by simp, ?_⟩⟩
        simp only [matchAdj, getDistanceSq]
        norm_num [BUBBLE_RADIUS]

-- C2 spec side: the 3x3 neighborhood in the loop's row-major scan order,
-- its free cells, and the first distance-minimizing free cell (Mathlib's
-- List.argmin keeps the earlier element on ties, exactly the loop's
-- strict-less update).

def neighborCells (row col : ℤ) : List (ℤ × ℤ) :=
  neighborOffsets.map (fun d => (row + d.1, col + d.2))

def cellFree (bs : List Bubble) (rc : ℤ × ℤ) : Bool :=
  decide (0 ≤ rc.1) && !isOccupied bs rc.1 rc.2

def freeNeighborCells (bs : List Bubble) (row col : ℤ) : List (ℤ × ℤ) :=
  (neighborCells row col).filter (cellFree bs)

/-- The loop accumulator (bestDist, bestRow, bestCol) determined by the
    current best candidate: none encodes the initial Infinity state. -/
def bestState {β : Type} (f : β → ℚ) (init : β) : Option β → Option ℚ × β
  | none => (none, init)
  | some a => (some (f a), a)

lemma foldl_best_argAux {α β : Type} (g : α → β) (f : β → ℚ) (keep : β → Bool)
    (init : β) :
    ∀ (l : List α) (o : Option β),
      l.foldl
        (fun acc d =>
          if keep (g d) then
            (if ltInf (f (g d)) acc.1 then (some (f (g d)), g d) else acc)
          else acc)
        (bestState f init o) =
      bestState f init
        (((l.map g).filter keep).foldl (List.argAux fun b c => f b < f c) o) := by
  intro l
  induction l with
  | nil => intro o; simp
  | cons a l ih =>
    intro o
    by_cases hk : keep (g a) = true
    · rw [List.foldl_cons, List.map_cons, List.filter_cons_of_pos hk, List.foldl_cons]
      rw [if_pos hk]
      cases o with
      | none =>
        have h1 : ltInf (f (g a)) (bestState f init none).1 = true := rfl
        rw [if_pos h1]
        have h2 : (some (f (g a)), g a) = bestState f init (some (g a)) := rfl
        have h3 : List.argAux (fun b c => f b < f c) none (g a) = some (g a) := rfl
        rw [h2, h3, ih]
      | some b =>
        by_cases hlt : f (g a) < f b
        · have h1 : ltInf (f (g a)) (bestState f init (some b)).1 = true := by
            simp [bestState, ltInf, hlt]
          rw [if_pos h1]
          have h2 : (some (f (g a)), g a) = bestState f init (some (g a)) := rfl
          have h3 : List.argAux (fun b c => f b < f c) (some b) (g a) = some (g a) := by
            simp [List.argAux, hlt]
          rw [h2, h3, ih]
        · have h1 : ltInf (f (g a)) (bestState f init (some b)).1 = false := by
            simp [bestState, ltInf, hlt]
          rw [h1]
          have h3 : List.argAux (fun b c => f b < f c) (some b) (g a) = some b := by
            simp [List.argAux, hlt]
          simp only [Bool.false_eq_true, if_false]
          rw [h3, ih]
    · rw [List.foldl_cons, List.map_cons, List.filter_cons_of_neg (by simpa using hk),
        if_neg hk]
      exact ih o

/-- C2: when the cell computed from the pre-collision position is occupied,
    the Collision Resolver picks, among the free cells of the 3x3
    neighborhood enumerated in row-major then column-major order (rows < 0
    excluded), the first one whose center minimizes the Euclidean distance
    to (prevX, prevY) — Mathlib's argmin keeps the earliest minimum, the
    tie-break of the loop — and falls back to the original occupied cell
    when no neighborhood cell is free. -/
theorem collision_resolver_nearest (bs : List Bubble) (prevX prevY : ℚ)
    (hocc : isOccupied bs (getRow prevY) (getCol prevX (getRow prevY)) = true) :
    resolveCell bs prevX prevY =
      ((freeNeighborCells bs (getRow prevY) (getCol prevX (getRow prevY))).argmin
        (fun rc => getDistanceSq prevX prevY (getX rc.1 rc.2) (getY rc.1))).getD
        (getRow prevY, getCol prevX (getRow prevY)) := by
  simp only [resolveCell]
  rw [if_pos hocc]
  set row := getRow prevY with hrow
  set col := getCol prevX row with hcol
  set f : ℤ × ℤ → ℚ := fun rc => getDistanceSq prevX prevY (getX rc.1 rc.2) (getY rc.1)
    with hf
  have hstep :
      (fun (acc : Option ℚ × ℤ × ℤ) (d : ℤ × ℤ) =>
        if row + d.1 < 0 then acc
        else if isOccupied bs (row + d.1) (col + d.2) then acc
        else
          if ltInf (getDistanceSq prevX prevY (getX (row + d.1) (col + d.2))
              (getY (row + d.1))) acc.1 then
            (some (getDistanceSq prevX prevY (getX (row + d.1) (col + d.2))
              (getY (row + d.1))), row + d.1, col + d.2)
          else acc) =
      (fun (acc : Option ℚ × ℤ × ℤ) (d : ℤ × ℤ) =>
        if cellFree bs ((fun d : ℤ × ℤ => (row + d.1, col + d.2)) d) then
          (if ltInf (f ((fun d : ℤ × ℤ => (row + d.1, col + d.2)) d)) acc.1 then
            (some (f ((fun d : ℤ × ℤ => (row + d.1, col + d.2)) d)),
              (fun d : ℤ × ℤ => (row + d.1, col + d.2)) d)
          else acc)
        else acc) := by
    funext acc d
    simp only [cellFree, hf]
    by_cases h1 : row + d.1 < 0
    · rw [if_pos h1]
      have hd : decide (0 ≤ row + d.1) = false := by
        simp only [decide_eq_false_iff_not]
        omega
      simp [hd]
    · rw [if_neg h1]
      have hd : decide (0 ≤ row + d.1) = true := by
        simp only [decide_eq_true_eq]
        omega
      by_cases h2 : isOccupied bs (row + d.1) (col + d.2) = true
      · rw [if_pos h2]
        simp [hd, h2]
      · rw [if_neg h2]
        simp only [Bool.not_eq_true] at h2
        simp [hd, h2]
  rw [hstep]
  have hmain := foldl_best_argAux (fun d : ℤ × ℤ => (row + d.1, col + d.2)) f
    (cellFree bs) (row, col) neighborOffsets none
  have hinit : bestState f (row, col) none = ((none : Option ℚ), (row, col)) := rfl
  rw [hinit] at hmain
  rw [hmain]
  have hlist : (neighborOffsets.map fun d : ℤ × ℤ => (row + d.1, col + d.2)).filter
      (cellFree bs) = freeNeighborCells bs row col := rfl
  rw [hlist]
  have hargm : (freeNeighborCells bs row col).argmin f =
      (freeNeighborCells bs row col).foldl (List.argAux fun b c => f b < f c) none := rfl
  rw [← hargm]
  cases harg : (freeNeighborCells bs row col).argmin f with
  | none => rfl
  | some a => rfl

theorem collision_resolver_nearest_witness :
    resolveCell [{ x := 20, y := 20, color := 0, id := 0 }] 20 20 =
      ((freeNeighborCells [{ x := 20, y := 20, color := 0, id := 0 }]
          (getRow 20) (getCol 20 (getRow 20))).argmin
        (fun rc => getDistanceSq 20 20 (getX rc.1 rc.2) (getY rc.1))).getD
        (getRow 20, getCol 20 (getRow 20)) :=
  collision_resolver_nearest [{ x := 20, y := 20, color := 0, id := 0 }] 20 20
    (by simp [isOccupied])

-- C9: the source multiplies by the literal 1.732 (lines 129, 143), which
-- is not the square root of 3, so the claimed pitch radius * sqrt 3 is
-- falsified at row 1 and the true pitch is radius * 1.732.

/-- C9 counterexample: already at row 1 the vertical grid position is
    54.64, not 20 * sqrt 3 + 20, because the code uses the literal 1.732
    rather than the square root of 3. -/
theorem row_pitch_cex :
    ¬ (((getY 1 : ℚ) : ℝ) =
      (1 : ℝ) * ((BUBBLE_RADIUS : ℚ) : ℝ) * Real.sqrt 3 + ((BUBBLE_RADIUS : ℚ) : ℝ)) := by
  intro h
  have hy : (getY 1 : ℚ) = 54.64 := by norm_num [getY, BUBBLE_RADIUS]
  rw [hy] at h
  have hr : ((BUBBLE_RADIUS : ℚ) : ℝ) = 20 := by norm_num [BUBBLE_RADIUS]
  rw [hr] at h
  have hcast : (((54.64 : ℚ) : ℝ)) = 54.64 := by norm_num
  rw [hcast] at h
  have h1 : Real.sqrt 3 = 1.732 := by linarith
  have h2 : Real.sqrt 3 ^ 2 = 3 := Real.sq_sqrt (by norm_num)
  rw [h1] at h2
  norm_num at h2

/-- C9 amended: the row pitch is exactly radius * 1.732 (the source's
    rational approximation of sqrt 3): getY (row+1) - getY row =
    radius * 1.732, getY row = row * radius * 1.732 + radius, and
    getRow y = round ((y - radius) / (radius * 1.732)). -/
theorem row_pitch_amended (row : ℕ) (y : ℚ) :
    getY ((row : ℤ) + 1) - getY (row : ℤ) = BUBBLE_RADIUS * 1.732 ∧
    getY (row : ℤ) = (row : ℚ) * BUBBLE_RADIUS * 1.732 + BUBBLE_RADIUS ∧
    getRow y = jsRound ((y - BUBBLE_RADIUS) / (BUBBLE_RADIUS * 1.732)) := by
  refine ⟨?_, ?_, rfl⟩
  · unfold getY
    push_cast
    ring
  · unfold getY
    norm_num

-- C6: the claimed bound radius ≤ x ≤ width - radius holds for the initial
-- field, but the Collision Resolver does not clamp columns: from a field
-- satisfying the bound it can materialize a bubble at column 7 of an odd
-- row (x = 320 > 300), refuting the invariant as claimed.

/-- C6 counterexample: the field holds one bubble at x = 280 (within
    bounds); from pre-collision position (310, 54.64) the resolver maps to
    the free cell (row 1, col 7) whose center x = getX 1 7 = 320 exceeds
    width - radius = 300. -/
theorem playfield_bounds_cex :
    (∀ b ∈ [({ x := 280, y := 54.64, color := 0, id := 0 } : Bubble)],
       BUBBLE_RADIUS ≤ b.x ∧ b.x ≤ CANVAS_WIDTH - BUBBLE_RADIUS) ∧
    CANVAS_WIDTH - BUBBLE_RADIUS <
      getX (resolveCell [{ x := 280, y := 54.64, color := 0, id := 0 }] 310 54.64).1
        (resolveCell [{ x := 280, y := 54.64, color := 0, id := 0 }] 310 54.64).2 := by
  have hrow : getRow (54.64 : ℚ) = 1 := by
    norm_num [getRow, jsRound, BUBBLE_RADIUS]
  have hcol : getCol (310 : ℚ) 1 = 7 := by
    norm_num [getCol, jsRound, BUBBLE_RADIUS]
  have hbc : getCol (280 : ℚ) 1 = 6 := by
    norm_num [getCol, jsRound, BUBBLE_RADIUS]
  have hocc : isOccupied [{ x := 280, y := 54.64, color := 0, id := 0 }] 1 7 = false := by
    simp only [isOccupied, List.any_cons, List.any_nil, Bool.or_false]
    rw [hrow, hbc]
    norm_num
  have hres : resolveCell [{ x := 280, y := 54.64, color := 0, id := 0 }] 310 54.64 =
      (1, 7) := by
    simp only [resolveCell]
    rw [hrow, hcol, hocc]
    norm_num
  constructor
  · intro b hb
    have hb' : b = { x := 280, y := 54.64, color := 0, id := 0 } := by simpa using hb
    subst hb'
    norm_num [BUBBLE_RADIUS, CANVAS_WIDTH, GRID_COLS]
  · rw [hres]
    norm_num [getX, BUBBLE_RADIUS, CANVAS_WIDTH, GRID_COLS]

lemma getX_bounds (r c : ℤ) (h0 : 0 ≤ c) (h7 : c ≤ 7) (hodd : r % 2 ≠ 0 → c ≤ 6) :
    BUBBLE_RADIUS ≤ getX r c ∧ getX r c ≤ CANVAS_WIDTH - BUBBLE_RADIUS := by
  have hc0 : (0 : ℚ) ≤ (c : ℚ) := by exact_mod_cast h0
  simp only [getX, BUBBLE_RADIUS, CANVAS_WIDTH, GRID_COLS]
  by_cases hpar : r % 2 ≠ 0
  · have hc6 : (c : ℚ) ≤ 6 := by exact_mod_cast hodd hpar
    rw [if_pos hpar]
    push_cast
    constructor <;> nlinarith
  · have hc7 : (c : ℚ) ≤ 7 := by exact_mod_cast h7
    rw [if_neg hpar]
    push_cast
    constructor <;> nlinarith

/-- C6 amended: the x bound radius ≤ x ≤ width - radius holds for every
    initial bubble, and holds for a resolver-materialized bubble exactly
    when the selected column stays within the grid's column range for its
    row (0..7 on even rows, 0..6 on odd rows); the resolver does not clamp
    columns, so outside this range the bound can fail (see the
    counterexample). -/
theorem playfield_bounds_amended :
    (∀ (s : Game) (pick : ℕ → ℕ → ℕ), ∀ b ∈ (initGame s pick).bubbles,
       BUBBLE_RADIUS ≤ b.x ∧ b.x ≤ CANVAS_WIDTH - BUBBLE_RADIUS) ∧
    (∀ (bs : List Bubble) (prevX prevY : ℚ),
       0 ≤ (resolveCell bs prevX prevY).2 →
       (resolveCell bs prevX prevY).2 ≤ 7 →
       ((resolveCell bs prevX prevY).1 % 2 ≠ 0 → (resolveCell bs prevX prevY).2 ≤ 6) →
       BUBBLE_RADIUS ≤ getX (resolveCell bs prevX prevY).1 (resolveCell bs prevX prevY).2 ∧
         getX (resolveCell bs prevX prevY).1 (resolveCell bs prevX prevY).2 ≤
           CANVAS_WIDTH - BUBBLE_RADIUS) := by
  constructor
  · intro s pick b hb
    have hb' : b ∈ initialBubbles pick := hb
    rw [initialBubbles] at hb'
    obtain ⟨row, hrow, hb2⟩ := List.mem_flatMap.1 hb'
    obtain ⟨col, hcol, rfl⟩ := List.mem_map.1 hb2
    have hrow6 : row < 6 := List.mem_range.1 hrow
    have hcoln : col < colsInRow row := List.mem_range.1 hcol
    have hcols8 : colsInRow row ≤ 8 := by
      simp only [colsInRow, GRID_COLS]
      split <;> omega
    have h7 : (col : ℤ) ≤ 7 := by omega
    have hodd : (row : ℤ) % 2 ≠ 0 → (col : ℤ) ≤ 6 := by
      intro hpar
      have hparn : ¬ row % 2 = 0 := by omega
      have : colsInRow row = 7 := by simp [colsInRow, hparn, GRID_COLS]
      omega
    exact getX_bounds (row : ℤ) (col : ℤ) (by omega) h7 hodd
  · intro bs prevX prevY h0 h7 hodd
    exact getX_bounds _ _ h0 h7 hodd

theorem playfield_bounds_amended_witness :
    (BUBBLE_RADIUS ≤ ({ x := getX 0 0, y := getY 0, color := 0, id := 0 } : Bubble).x ∧
      ({ x := getX 0 0, y := getY 0, color := 0, id := 0 } : Bubble).x ≤
        CANVAS_WIDTH - BUBBLE_RADIUS) ∧
    (BUBBLE_RADIUS ≤ getX (resolveCell [] 20 20).1 (resolveCell [] 20 20).2 ∧
      getX (resolveCell [] 20 20).1 (resolveCell [] 20 20).2 ≤
        CANVAS_WIDTH - BUBBLE_RADIUS) := by
  have hres : resolveCell [] 20 20 = (0, 0) := by
    have hrow : getRow (20 : ℚ) = 0 := by
      norm_num [getRow, jsRound, BUBBLE_RADIUS]
    have hcol : getCol (20 : ℚ) 0 = 0 := by
      norm_num [getCol, jsRound, BUBBLE_RADIUS]
    simp only [resolveCell, isOccupied, List.any_nil]
    rw [hrow, hcol]
    norm_num
  constructor
  · exact playfield_bounds_amended.1
      { bubbles := [], score := 0, gameState := GState.playing, projectile := none,
        nextColor := 0, nextId := 0 }
      (fun _ _ => 0)
      { x := getX 0 0, y := getY 0, color := 0, id := 0 }
      (by
        rw [initGame, initialBubbles]
        refine List.mem_flatMap.2 ⟨0, by norm_num, List.mem_map.2 ⟨0, ?_, rfl⟩⟩
        norm_num [colsInRow, GRID_COLS])
  · exact playfield_bounds_amended.2 [] 20 20
      (by rw [hres]) (by rw [hres]; norm_num) (by rw [hres]; norm_num)

lemma getY_nat_inj (r1 r2 : ℕ) : getY (r1 : ℤ) = getY (r2 : ℤ) ↔ r1 = r2 := by
  unfold getY
  constructor
  · intro h
    have h' : ((r1 : ℚ)) * (BUBBLE_RADIUS * 1.732) = ((r2 : ℚ)) * (BUBBLE_RADIUS * 1.732) := by
      push_cast at h ⊢
      linarith
    have hne : (BUBBLE_RADIUS * (1.732 : ℚ)) ≠ 0 := by norm_num [BUBBLE_RADIUS]
    have : (r1 : ℚ) = (r2 : ℚ) := mul_right_cancel₀ hne h'
    exact_mod_cast this
  · intro h
    rw [h]

/-- C10: initGame always produces the 6-row initial field populated per the
    offset-row rule (8 bubbles on even rows, 7 on odd rows, 45 in total,
    each at its exact grid center), resets the score to 0, clears the
    projectile and enters the playing state. -/
theorem initGame_spec (s : Game) (pick : ℕ → ℕ → ℕ) :
    (initGame s pick).bubbles.length = 45 ∧
    (∀ b ∈ (initGame s pick).bubbles, ∃ row col : ℕ, row < 6 ∧ col < colsInRow row ∧
        colsInRow row = (if row % 2 = 0 then 8 else 7) ∧
        b.x = getX (row : ℤ) (col : ℤ) ∧ b.y = getY (row : ℤ)) ∧
    (∀ r : ℕ, r < 6 →
        ((initGame s pick).bubbles.filter (fun b => decide (b.y = getY (r : ℤ)))).length =
          (if r % 2 = 0 then 8 else 7)) ∧
    (initGame s pick).score = 0 ∧
    (initGame s pick).projectile = none ∧
    (initGame s pick).gameState = GState.playing := by
  have hrowlen : ∀ (r' r : ℕ),
      (((List.range (colsInRow r')).map (fun (col : ℕ) =>
          ({ x := getX (r' : ℤ) (col : ℤ), y := getY (r' : ℤ),
             color := pick r' col, id := r' * GRID_COLS + col } : Bubble))).filter
        (fun b => decide (b.y = getY (r : ℤ)))).length =
      if r' = r then colsInRow r' else 0 := by
    intro r' r
    by_cases h : r' = r
    · subst h
      rw [List.filter_eq_self.2, List.length_map, List.length_range, if_pos rfl]
      intro b hb
      obtain ⟨col, _, rfl⟩ := List.mem_map.1 hb
      simp
    · rw [List.filter_eq_nil_iff.2, if_neg h]
      · rfl
      · intro b hb
        obtain ⟨col, _, rfl⟩ := List.mem_map.1 hb
        simp only [decide_eq_true_eq]
        exact fun hy => h ((getY_nat_inj r' r).1 hy)
  refine ⟨?_, ?_, ?_, rfl, rfl, rfl⟩
  · show (initialBubbles pick).length = 45
    rfl
  · intro b hb
    have hb' : b ∈ initialBubbles pick := hb
    rw [initialBubbles] at hb'
    obtain ⟨row, hrow, hb2⟩ := List.mem_flatMap.1 hb'
    obtain ⟨col, hcol, rfl⟩ := List.mem_map.1 hb2
    refine ⟨row, col, List.mem_range.1 hrow, List.mem_range.1 hcol, ?_, rfl, rfl⟩
    simp only [colsInRow, GRID_COLS]
  · intro r hr
    show ((initialBubbles pick).filter _).length = _
    rw [initialBubbles]
    rw [show List.range 6 = [0, 1, 2, 3, 4, 5] from rfl]
    simp only [List.flatMap_cons, List.flatMap_nil, List.append_nil, List.filter_append,
      List.length_append]
    rw [hrowlen 0 r, hrowlen 1 r, hrowlen 2 r, hrowlen 3 r, hrowlen 4 r, hrowlen 5 r]
    have hcases : r = 0 ∨ r = 1 ∨ r = 2 ∨ r = 3 ∨ r = 4 ∨ r = 5 := by omega
    rcases hcases with rfl | rfl | rfl | rfl | rfl | rfl <;> decide

/-- Player-visible transitions while a game is running: a simulation tick
    or a fire input (reset excluded). -/
inductive Act where
  | step
  | shoot (vx vy : ℚ) (c : ℕ)

def applyAct (s : Game) : Act → Game
  | .step => tick s
  | .shoot vx vy c => fire s vx vy c

lemma tick_playing_some (s : Game) (p0 : Projectile)
    (hst : s.gameState = GState.playing) (hp : s.projectile = some p0) :
    tick s =
      (if projectileHit s.bubbles (moveProjectile p0) then
        tickCollide s (moveProjectile p0)
      else if (moveProjectile p0).y < -BUBBLE_RADIUS ∨
          (moveProjectile p0).y > CANVAS_HEIGHT + BUBBLE_RADIUS then
        { s with projectile := none }
      else { s with projectile := some (moveProjectile p0) }) := by
  rw [tick, hst, hp]
  simp

/-- The new bubble materialized by a collision of projectile p in state s
    (lines 416-421). -/
def placedBubble (s : Game) (p : Projectile) : Bubble :=
  { x := getX (resolveCell s.bubbles (p.x - p.vx) (p.y - p.vy)).1
           (resolveCell s.bubbles (p.x - p.vx) (p.y - p.vy)).2,
    y := getY (resolveCell s.bubbles (p.x - p.vx) (p.y - p.vy)).1,
    color := p.color, id := s.nextId }

lemma tickCollide_fields (s : Game) (p : Projectile) :
    (tickCollide s p).bubbles = (processPlacement (placedBubble s p) s.bubbles).1 ∧
    (tickCollide s p).score = s.score + (processPlacement (placedBubble s p) s.bubbles).2 ∧
    (tickCollide s p).projectile = none ∧
    (tickCollide s p).gameState =
      (if (processPlacement (placedBubble s p) s.bubbles).1.any
          (fun b => decide (b.y > CANVAS_HEIGHT - 100)) then GState.gameover
        else GState.playing) := by
  refine ⟨rfl, rfl, rfl, rfl⟩

/-- A tick from a playing state with an in-flight projectile that consumes
    the projectile while changing the bubble count is a placement tick: its
    field, score and game state are those produced by processPlacement on
    the materialized bubble. -/
lemma tick_placement (s : Game) (p0 : Projectile)
    (hst : s.gameState = GState.playing) (hp : s.projectile = some p0)
    (hnone : (tick s).projectile = none)
    (hlen : (tick s).bubbles.length ≠ s.bubbles.length) :
    ∃ nb : Bubble,
      (tick s).bubbles = (processPlacement nb s.bubbles).1 ∧
      (tick s).score = s.score + (processPlacement nb s.bubbles).2 ∧
      (tick s).gameState =
        (if (processPlacement nb s.bubbles).1.any
            (fun b => decide (b.y > CANVAS_HEIGHT - 100)) then GState.gameover
          else GState.playing) := by
  rw [tick_playing_some s p0 hst hp] at hnone hlen ⊢
  by_cases hhit : projectileHit s.bubbles (moveProjectile p0) = true
  · rw [if_pos hhit] at *
    exact ⟨placedBubble s (moveProjectile p0), (tickCollide_fields _ _).1,
      (tickCollide_fields _ _).2.1, (tickCollide_fields _ _).2.2.2⟩
  · rw [if_neg hhit] at hnone hlen
    by_cases hout : (moveProjectile p0).y < -BUBBLE_RADIUS ∨
        (moveProjectile p0).y > CANVAS_HEIGHT + BUBBLE_RADIUS
    · rw [if_pos hout] at hlen
      exact absurd rfl hlen
    · rw [if_neg hout] at hnone
      cases hnone

/-- C7: once a placement leaves a bubble below the danger line the state
    becomes gameover (and only then); in gameover, ticks and fire inputs
    leave the state unchanged (no projectile is ever created), so the state
    stays gameover under any sequence of ticks and fire inputs until
    reset. -/
theorem gameover_monotone :
    (∀ (s : Game) (p0 : Projectile), s.gameState = GState.playing →
       s.projectile = some p0 → (tick s).projectile = none →
       (tick s).bubbles.length ≠ s.bubbles.length →
       ((tick s).gameState = GState.gameover ↔
         (tick s).bubbles.any (fun b => decide (b.y > CANVAS_HEIGHT - 100)) = true)) ∧
    (∀ s : Game, s.gameState = GState.gameover →
       tick s = s ∧ ∀ vx vy c, fire s vx vy c = s) ∧
    (∀ (s : Game) (acts : List Act), s.gameState = GState.gameover →
       (acts.foldl applyAct s).gameState = GState.gameover) := by
  have hstay : ∀ s : Game, s.gameState = GState.gameover →
      tick s = s ∧ ∀ vx vy c, fire s vx vy c = s := by
    intro s hgo
    constructor
    · rw [tick, if_pos (by rw [hgo]; exact fun h => GState.noConfusion h)]
    · intro vx vy c
      rw [fire, if_pos (Or.inl (by rw [hgo]; exact fun h => GState.noConfusion h))]
  refine ⟨?_, hstay, ?_⟩
  · intro s p0 hst hp hnone hlen
    obtain ⟨nb, hb, _, hg⟩ := tick_placement s p0 hst hp hnone hlen
    rw [hg, hb]
    by_cases hany : (processPlacement nb s.bubbles).1.any
        (fun b => decide (b.y > CANVAS_HEIGHT - 100)) = true
    · rw [if_pos hany]
      exact ⟨fun _ => hany, fun _ => rfl⟩
    · rw [if_neg hany]
      constructor
      · intro h
        exact absurd h (fun h' => GState.noConfusion h')
      · intro h
        exact absurd h hany
  · intro s acts hgo
    induction acts generalizing s with
    | nil => exact hgo
    | cons a acts ih =>
      rw [List.foldl_cons]
      cases a with
      | step =>
        rw [show applyAct s Act.step = tick s from rfl, (hstay s hgo).1]
        exact ih s hgo
      | shoot vx vy c =>
        rw [show applyAct s (Act.shoot vx vy c) = fire s vx vy c from rfl,
          (hstay s hgo).2 vx vy c]
        exact ih s hgo

/-- C5: a placement producing a match of size m ≥ 3 with f floating
    bubbles increases the score by exactly 10 m + 20 f; a non-match
    placement (size < 3) scores nothing and removes nothing, and the score
    field of the simulation changes by exactly the processPlacement
    increment on every placement tick. -/
theorem score_formula :
    (∀ (nb : Bubble) (bs : List Bubble),
       (3 ≤ (findMatches nb (bs ++ [nb])).length →
         (processPlacement nb bs).2 =
           10 * (findMatches nb (bs ++ [nb])).length +
             20 * (findFloatingBubbles ((bs ++ [nb]).filter
               (fun b => decide (¬ b.id ∈ findMatches nb (bs ++ [nb]))))).length) ∧
       ((findMatches nb (bs ++ [nb])).length < 3 →
         (processPlacement nb bs).2 = 0 ∧ (processPlacement nb bs).1 = bs ++ [nb])) ∧
    (∀ (s : Game) (p0 : Projectile), s.gameState = GState.playing →
       s.projectile = some p0 → (tick s).projectile = none →
       (tick s).bubbles.length ≠ s.bubbles.length →
       ∃ nb : Bubble, (tick s).score = s.score + (processPlacement nb s.bubbles).2 ∧
         (tick s).bubbles = (processPlacement nb s.bubbles).1) := by
  constructor
  · intro nb bs
    constructor
    · intro hge
      simp only [processPlacement]
      rw [if_pos hge]
      ring
    · intro hlt
      simp only [processPlacement]
      rw [if_neg (by omega)]
      exact ⟨rfl, rfl⟩
  · intro s p0 hst hp hnone hlen
    obtain ⟨nb, hb, hs, _⟩ := tick_placement s p0 hst hp hnone hlen
    exact ⟨nb, hs, hb⟩

/-- A concrete playing state used by witnesses: one bubble below the
    danger line and a projectile flying straight up. -/
def placementExample : Game where
  bubbles := [{ x := 20, y := 401.04, color := 0, id := 0 }]
  score := 0
  gameState := GState.playing
  projectile := some { x := 20, y := 440, vx := 0, vy := -8, color := 1 }
  nextColor := 0
  nextId := 5

/-- A concrete gameover state used by witnesses. -/
def gameoverExample : Game where
  bubbles := []
  score := 0
  gameState := GState.gameover
  projectile := none
  nextColor := 0
  nextId := 0

lemma findMatches_example :
    findMatches { x := 20, y := 435.68, color := 1, id := 5 }
      [{ x := 20, y := 401.04, color := 0, id := 0 },
       { x := 20, y := 435.68, color := 1, id := 5 }] = [5] := by
  rw [findMatches]
  show floodGo _ matchAdj (2 + 1) _ [] = [5]
  rw [floodGo_succ]
  have hins : (([] : List ℕ).insert 5) = [5] := rfl
  rw [hins]
  have hfilter : (([{ x := 20, y := 401.04, color := 0, id := 0 },
      { x := 20, y := 435.68, color := 1, id := 5 }] : List Bubble).filter
        (fun b => decide (¬ b.id ∈ ([5] : List ℕ)) &&
          matchAdj { x := 20, y := 435.68, color := 1, id := 5 } b)) = [] := by
    simp [matchAdj]
  rw [hfilter, floodList_nil]

-- A concrete placement tick used by the witnesses below: one bubble sits
-- below the danger line, the projectile flies straight up and snaps to the
-- free cell (12, 0); no match occurs, and the game-over check fires.

lemma tick_eval_example :
    tick placementExample =
      { bubbles := [{ x := 20, y := 401.04, color := 0, id := 0 },
                    { x := 20, y := 435.68, color := 1, id := 5 }], score := 0,
        gameState := GState.gameover, projectile := none, nextColor := 0,
        nextId := 6 } := by
  rw [show placementExample =
    { bubbles := [{ x := 20, y := 401.04, color := 0, id := 0 }], score := 0,
      gameState := GState.playing,
      projectile := some { x := 20, y := 440, vx := 0, vy := -8, color := 1 },
      nextColor := 0, nextId := 5 } from rfl]
  have hmove : moveProjectile { x := 20, y := 440, vx := 0, vy := -8, color := 1 } =
      { x := 20, y := 432, vx := 0, vy := -8, color := 1 } := by
    simp only [moveProjectile]
    norm_num [BUBBLE_RADIUS, CANVAS_WIDTH, GRID_COLS, Projectile.mk.injEq]
  have hhit : projectileHit [{ x := 20, y := 401.04, color := 0, id := 0 }]
      { x := 20, y := 432, vx := 0, vy := -8, color := 1 } = true := by
    simp only [projectileHit, getDistanceSq, List.any_cons, List.any_nil]
    norm_num [BUBBLE_RADIUS]
  have hrow440 : getRow (440 : ℚ) = 12 := by
    norm_num [getRow, jsRound, BUBBLE_RADIUS]
  have hcol20 : getCol (20 : ℚ) 12 = 0 := by
    norm_num [getCol, jsRound, BUBBLE_RADIUS]
  have hrowb : getRow (401.04 : ℚ) = 11 := by
    norm_num [getRow, jsRound, BUBBLE_RADIUS]
  have hcolb : getCol (20 : ℚ) 11 = 0 := by
    norm_num [getCol, jsRound, BUBBLE_RADIUS]
  have hocc : isOccupied [{ x := 20, y := 401.04, color := 0, id := 0 }] 12 0 = false := by
    simp only [isOccupied, List.any_cons, List.any_nil, Bool.or_false]
    rw [hrowb, hcolb]
    norm_num
  have hres : resolveCell [{ x := 20, y := 401.04, color := 0, id := 0 }] 20 440 =
      (12, 0) := by
    simp only [resolveCell]
    rw [hrow440, hcol20, hocc]
    norm_num
  have hx : getX 12 0 = 20 := by
    norm_num [getX, BUBBLE_RADIUS]
  have hy : getY 12 = 435.68 := by
    norm_num [getY, BUBBLE_RADIUS]
  have hfm := findMatches_example
  have hpp : processPlacement { x := 20, y := 435.68, color := 1, id := 5 }
      [{ x := 20, y := 401.04, color := 0, id := 0 }] =
      ([{ x := 20, y := 401.04, color := 0, id := 0 },
        { x := 20, y := 435.68, color := 1, id := 5 }], 0) := by
    simp only [processPlacement, List.cons_append, List.nil_append, hfm]
    norm_num
  have hargs : resolveCell [{ x := 20, y := 401.04, color := 0, id := 0 }]
      ((20 : ℚ) - 0) ((432 : ℚ) - -8) = (12, 0) := by
    have h1 : ((20 : ℚ) - 0) = 20 := by norm_num
    have h2 : ((432 : ℚ) - -8) = 440 := by norm_num
    rw [h1, h2, hres]
  rw [tick_playing_some _ { x := 20, y := 440, vx := 0, vy := -8, color := 1 } rfl rfl]
  simp only [hmove]
  rw [if_pos hhit]
  simp only [tickCollide, Game.mk.injEq]
  simp only [hargs]
  simp only [hx, hy]
  simp only [hpp]
  have hany : (([{ x := 20, y := 401.04, color := 0, id := 0 },
      { x := 20, y := 435.68, color := 1, id := 5 }] : List Bubble).any
        (fun b => decide (b.y > CANVAS_HEIGHT - 100))) = true := by
    simp only [List.any_cons, List.any_nil, Bool.or_false]
    norm_num [CANVAS_HEIGHT]
  rw [if_pos hany]
  norm_num


theorem gameover_monotone_witness :
    ((tick placementExample).gameState = GState.gameover ↔
      (tick placementExample).bubbles.any
        (fun b => decide (b.y > CANVAS_HEIGHT - 100)) = true) ∧
    (tick gameoverExample = gameoverExample) ∧
    (([Act.step, Act.shoot 1 2 3].foldl applyAct gameoverExample).gameState =
      GState.gameover) := by
  refine ⟨?_, ?_, ?_⟩
  · exact gameover_monotone.1 placementExample
      { x := 20, y := 440, vx := 0, vy := -8, color := 1 } rfl rfl
      (by rw [tick_eval_example]) (by rw [tick_eval_example]; simp [placementExample])
  · exact (gameover_monotone.2.1 gameoverExample rfl).1
  · exact gameover_monotone.2.2 gameoverExample [Act.step, Act.shoot 1 2 3] rfl

theorem score_formula_witness :
    ((processPlacement { x := 20, y := 435.68, color := 1, id := 5 }
        [{ x := 20, y := 401.04, color := 0, id := 0 }]).2 = 0 ∧
      (processPlacement { x := 20, y := 435.68, color := 1, id := 5 }
        [{ x := 20, y := 401.04, color := 0, id := 0 }]).1 =
          [{ x := 20, y := 401.04, color := 0, id := 0 }] ++
            [{ x := 20, y := 435.68, color := 1, id := 5 }]) ∧
    (∃ nb : Bubble,
      (tick placementExample).score =
        placementExample.score +
          (processPlacement nb placementExample.bubbles).2 ∧
      (tick placementExample).bubbles =
        (processPlacement nb placementExample.bubbles).1) := by
  constructor
  · refine (score_formula.1 { x := 20, y := 435.68, color := 1, id := 5 }
      [{ x := 20, y := 401.04, color := 0, id := 0 }]).2 ?_
    rw [show ([{ x := 20, y := 401.04, color := 0, id := 0 }] ++
      [({ x := 20, y := 435.68, color := 1, id := 5 } : Bubble)]) =
        [{ x := 20, y := 401.04, color := 0, id := 0 },
         { x := 20, y := 435.68, color := 1, id := 5 }] from rfl, findMatches_example]
    norm_num
  · exact score_formula.2 placementExample
      { x := 20, y := 440, vx := 0, vy := -8, color := 1 } rfl rfl
      (by rw [tick_eval_example]) (by rw [tick_eval_example]; simp [placementExample])

theorem initGame_spec_witness :
    (initGame gameoverExample (fun _ _ => 0)).bubbles.length = 45 ∧
    ((initGame gameoverExample (fun _ _ => 0)).bubbles.filter
      (fun b => decide (b.y = getY (0 : ℤ)))).length = (if 0 % 2 = 0 then 8 else 7) ∧
    (initGame gameoverExample (fun _ _ => 0)).score = 0 ∧
    (initGame gameoverExample (fun _ _ => 0)).projectile = none ∧
    (initGame gameoverExample (fun _ _ => 0)).gameState = GState.playing := by
  refine ⟨(initGame_spec gameoverExample _).1,
    (initGame_spec gameoverExample _).2.2.1 0 (by norm_num),
    (initGame_spec gameoverExample _).2.2.2.1,
    (initGame_spec gameoverExample _).2.2.2.2.1,
    (initGame_spec gameoverExample _).2.2.2.2.2⟩
